import Mathlib

/-!
Verification of the sales-analytics aggregation engine.

The Python source (`src/utils/data_processor.py`, `src/utils/file_handler.py`,
`src/utils/api_handler.py`) is shallowly embedded here:

* transaction dictionaries become the `Transaction` structure;
* Python `int` becomes `Int`, `float` becomes `ℚ` (exact arithmetic —
  the spec sanctions "within rounding tolerance otherwise");
* Python `dict` accumulators, which preserve insertion order, become
  association lists updated in place by `updateAssoc`;
* Python's stable `sort`/`sorted` with a key becomes stable insertion
  sorts `sortDescBy` / `sortAscBy`;
* a Python expression that can raise (division by zero, `min`/`max` of an
  empty list) is embedded in `Option`, `none` marking the raised fault;
* Python's `round(x, 2)` (round-half-to-even) becomes `round2`.
-/

namespace SalesAnalytics

/-- A parsed transaction record, as produced by `parse_transactions`:
Quantity is an `int`, UnitPrice a `float` (here `ℚ`), the rest strings. -/
structure Transaction where
  transactionID : String
  date : String
  productID : String
  productName : String
  quantity : Int
  unitPrice : ℚ
  customerID : String
  region : String
deriving DecidableEq, Repr

/-- The line amount `t["Quantity"] * t["UnitPrice"]` used throughout the code. -/
def amount (t : Transaction) : ℚ := (t.quantity : ℚ) * t.unitPrice

/-- Python division `a / b`: raises `ZeroDivisionError` when `b = 0`,
embedded as `none`. -/
def pydiv (a b : ℚ) : Option ℚ := if b = 0 then none else some (a / b)

/-- Round a rational to the nearest integer, halves to the even neighbour —
the rounding mode of Python's builtin `round`. -/
def roundHalfEven (q : ℚ) : Int :=
  let f := ⌊q⌋
  let frac := q - (f : ℚ)
  if frac < 1/2 then f
  else if (1:ℚ)/2 < frac then f + 1
  else if f % 2 = 0 then f else f + 1

/-- Python's `round(x, 2)`. -/
def round2 (q : ℚ) : ℚ := (roundHalfEven (q * 100) : ℚ) / 100

/-- The Python `dict` accumulation pattern
`if k not in d: d[k] = init` followed by an update of `d[k]`,
on an insertion-ordered association list: an existing binding is updated
in place, a new key is appended at the end. -/
def updateAssoc {V : Type} (l : List (String × V)) (k : String) (init : V)
    (f : V → V) : List (String × V) :=
  match l with
  | [] => [(k, f init)]
  | (k', v) :: rest =>
      if k' = k then (k, f v) :: rest else (k', v) :: updateAssoc rest k init f

/-- Insert `a` into `l` keeping `l`'s elements with strictly greater key in
front: the insertion step of a stable descending sort by `key`. -/
def insDesc {α β : Type} [LinearOrder β] (key : α → β) (a : α) :
    List α → List α
  | [] => [a]
  | b :: l => if key a < key b then b :: insDesc key a l else a :: b :: l

/-- Stable descending insertion sort by `key`: the semantics of Python's
`sorted(..., key=..., reverse=True)` (stable, non-increasing on the key). -/
def sortDescBy {α β : Type} [LinearOrder β] (key : α → β) : List α → List α
  | [] => []
  | a :: l => insDesc key a (sortDescBy key l)

/-- Insertion step of a stable ascending sort by `key`. -/
def insAsc {α β : Type} [LinearOrder β] (key : α → β) (a : α) :
    List α → List α
  | [] => [a]
  | b :: l => if key b < key a then b :: insAsc key a l else a :: b :: l

/-- Stable ascending insertion sort by `key`: the semantics of Python's
`list.sort(key=...)` (stable, non-decreasing on the key). -/
def sortAscBy {α β : Type} [LinearOrder β] (key : α → β) : List α → List α
  | [] => []
  | a :: l => insAsc key a (sortAscBy key l)

/-! ## `data_processor.calculate_total_revenue` -/

/-- `calculate_total_revenue`: `total = 0`, then `total += qty * price`. -/
def calculate_total_revenue (transactions : List Transaction) : ℚ :=
  transactions.foldl (fun total t => total + amount t) 0

/-! ## `data_processor.region_wise_sales` -/

/-- Per-region accumulator: the inner dict
`{"total_sales": …, "transaction_count": …}`. -/
structure RegionAcc where
  total_sales : ℚ
  transaction_count : Nat
deriving DecidableEq, Repr

/-- Per-region result after the percentage pass. -/
structure RegionStat where
  total_sales : ℚ
  transaction_count : Nat
  percentage : ℚ
deriving DecidableEq, Repr

/-- The grouping loop of `region_wise_sales`: one `updateAssoc` per
transaction on the region key. -/
def regionGroups (transactions : List Transaction) :
    List (String × RegionAcc) :=
  transactions.foldl
    (fun acc t =>
      updateAssoc acc t.region ⟨0, 0⟩
        (fun s => ⟨s.total_sales + amount t, s.transaction_count + 1⟩))
    []

/-- Sequencing of an option-valued map over a list, embedding a Python loop
whose body may raise: the overall result is a fault iff any step faults. -/
def optionMapList {α β : Type} (f : α → Option β) : List α → Option (List β)
  | [] => some []
  | a :: l =>
      match f a, optionMapList f l with
      | some b, some bs => some (b :: bs)
      | _, _ => none

/-- The percentage pass of `region_wise_sales`:
`round((total_sales / grand_total) * 100, 2)` per region; dividing by a zero
grand total raises (the code has no zero guard). -/
def regionWithPct (transactions : List Transaction) :
    Option (List (String × RegionStat)) :=
  let total := calculate_total_revenue transactions
  optionMapList
    (fun p =>
      (pydiv p.2.total_sales total).map
        (fun q => (p.1, ⟨p.2.total_sales, p.2.transaction_count,
                          round2 (q * 100)⟩)))
    (regionGroups transactions)

/-- `region_wise_sales`: group, add percentages, then
`sorted(..., key=total_sales, reverse=True)`. -/
def region_wise_sales (transactions : List Transaction) :
    Option (List (String × RegionStat)) :=
  (regionWithPct transactions).map (sortDescBy (fun p => p.2.total_sales))

/-! ## `data_processor.top_selling_products` / `low_performing_products` -/

/-- Per-product accumulator `{"qty": …, "revenue": …}`. -/
structure ProdAcc where
  qty : Int
  revenue : ℚ
deriving DecidableEq, Repr

/-- The product grouping loop shared by `top_selling_products` and
`low_performing_products`, keyed by product name. -/
def productGroups (transactions : List Transaction) :
    List (String × ProdAcc) :=
  transactions.foldl
    (fun acc t =>
      updateAssoc acc t.productName ⟨0, 0⟩
        (fun s => ⟨s.qty + t.quantity, s.revenue + amount t⟩))
    []

/-- The `(name, qty, revenue)` tuple rows built from the product dict. -/
def productRows (transactions : List Transaction) : List (String × Int × ℚ) :=
  (productGroups transactions).map (fun p => (p.1, p.2.qty, p.2.revenue))

/-- `top_selling_products`: rows sorted by quantity descending (stable),
truncated to the first `n` (default 5). -/
def top_selling_products (transactions : List Transaction) (n : Nat := 5) :
    List (String × Int × ℚ) :=
  (sortDescBy (fun x => x.2.1) (productRows transactions)).take n

/-- `low_performing_products`: rows with `qty < threshold` (default 10),
sorted by quantity ascending (stable). -/
def low_performing_products (transactions : List Transaction)
    (threshold : Int := 10) : List (String × Int × ℚ) :=
  sortAscBy (fun x => x.2.1)
    ((productRows transactions).filter (fun x => x.2.1 < threshold))

/-! ## `data_processor.customer_analysis` -/

/-- Per-customer accumulator
`{"total_spent": …, "purchase_count": …, "products_bought": […]}`. -/
structure CustAcc where
  total_spent : ℚ
  purchase_count : Nat
  products_bought : List String
deriving DecidableEq, Repr

/-- Per-customer result after the average pass. -/
structure CustStat where
  total_spent : ℚ
  purchase_count : Nat
  avg_order_value : ℚ
  products_bought : List String
deriving DecidableEq, Repr

/-- The grouping loop of `customer_analysis`, keyed by customer id; product
names are appended only on first occurrence (first-seen order). -/
def customerGroups (transactions : List Transaction) :
    List (String × CustAcc) :=
  transactions.foldl
    (fun acc t =>
      updateAssoc acc t.customerID ⟨0, 0, []⟩
        (fun s =>
          ⟨s.total_spent + amount t, s.purchase_count + 1,
           if t.productName ∈ s.products_bought then s.products_bought
           else s.products_bought ++ [t.productName]⟩))
    []

/-- The average pass of `customer_analysis`:
`round(total / count, 2)` per customer (Python division, so a zero count
would raise; grouped counts are always ≥ 1). -/
def customerWithAvg (transactions : List Transaction) :
    Option (List (String × CustStat)) :=
  optionMapList
    (fun p =>
      (pydiv p.2.total_spent (p.2.purchase_count : ℚ)).map
        (fun q => (p.1, ⟨p.2.total_spent, p.2.purchase_count, round2 q,
                          p.2.products_bought⟩)))
    (customerGroups transactions)

/-- `customer_analysis`: group, add averages, then
`sorted(..., key=total_spent, reverse=True)`. -/
def customer_analysis (transactions : List Transaction) :
    Option (List (String × CustStat)) :=
  (customerWithAvg transactions).map (sortDescBy (fun p => p.2.total_spent))

/-! ## `data_processor.daily_sales_trend` / `find_peak_sales_day` -/

/-- Per-date accumulator `{"revenue": …, "transaction_count": …,
"customers": […]}`. -/
structure DayAcc where
  revenue : ℚ
  transaction_count : Nat
  customers : List String
deriving DecidableEq, Repr

/-- Per-date result row of `daily_sales_trend`. -/
structure DayStat where
  revenue : ℚ
  transaction_count : Nat
  unique_customers : Nat
deriving DecidableEq, Repr

/-- The grouping loop of `daily_sales_trend`, keyed by date string;
customers are appended only on first occurrence. -/
def dailyGroups (transactions : List Transaction) : List (String × DayAcc) :=
  transactions.foldl
    (fun acc t =>
      updateAssoc acc t.date ⟨0, 0, []⟩
        (fun s =>
          ⟨s.revenue + amount t, s.transaction_count + 1,
           if t.customerID ∈ s.customers then s.customers
           else s.customers ++ [t.customerID]⟩))
    []

/-- `daily_sales_trend`: group by date, then rebuild in
`sorted(daily_data)` (ascending key) order, replacing the customer list by
its length. -/
def daily_sales_trend (transactions : List Transaction) :
    List (String × DayStat) :=
  (sortAscBy Prod.fst (dailyGroups transactions)).map
    (fun p => (p.1, ⟨p.2.revenue, p.2.transaction_count,
                      p.2.customers.length⟩))

/-- One step of the `find_peak_sales_day` loop:
`if daily_data[date]["revenue"] > max_revenue: …`. -/
def peakStep (acc : String × ℚ × Nat) (p : String × DayStat) :
    String × ℚ × Nat :=
  if acc.2.1 < p.2.revenue then (p.1, p.2.revenue, p.2.transaction_count)
  else acc

/-- `find_peak_sales_day`: scan the daily buckets starting from the
sentinel `("", 0, 0)`, keeping the first date whose revenue strictly
exceeds the running maximum. -/
def find_peak_sales_day (transactions : List Transaction) :
    String × ℚ × Nat :=
  (daily_sales_trend transactions).foldl peakStep ("", 0, 0)

/-! ## `file_handler.validate_and_filter` -/

/-- The validation disjunction of `validate_and_filter`: quantity ≤ 0,
price ≤ 0, or a wrong identifier prefix letter. -/
def invalidTx (t : Transaction) : Bool :=
  decide (t.quantity ≤ 0) || decide (t.unitPrice ≤ 0) ||
  !(t.transactionID.startsWith "T") || !(t.productID.startsWith "P") ||
  !(t.customerID.startsWith "C")

/-- Python `if region and t["Region"] != region`: `None` and the empty
string are falsy, disabling the region filter. -/
def regionMismatch (region : Option String) (t : Transaction) : Bool :=
  match region with
  | none => false
  | some r => if r = "" then false else decide (t.region ≠ r)

/-- Python `if min_amount and amount < min_amount`: `None` and `0` are
falsy, disabling the lower bound. -/
def belowMin (minA : Option ℚ) (a : ℚ) : Bool :=
  match minA with
  | none => false
  | some m => if m = 0 then false else decide (a < m)

/-- Python `if max_amount and amount > max_amount`: `None` and `0` are
falsy, disabling the upper bound. -/
def aboveMax (maxA : Option ℚ) (a : ℚ) : Bool :=
  match maxA with
  | none => false
  | some m => if m = 0 then false else decide (m < a)

/-- The `filter_summary` dict returned by `validate_and_filter`. -/
structure VFSummary where
  total_input : Nat
  invalid : Nat
  filtered_by_region : Nat
  filtered_by_amount : Nat
  final_count : Nat
deriving DecidableEq, Repr

/-- One iteration of the `validate_and_filter` loop. State:
(valid list so far, invalid count, region-filtered count,
amount-filtered count). -/
def vfStep (region : Option String) (minA maxA : Option ℚ)
    (st : List Transaction × Nat × Nat × Nat) (t : Transaction) :
    List Transaction × Nat × Nat × Nat :=
  if invalidTx t then (st.1, st.2.1 + 1, st.2.2.1, st.2.2.2)
  else if regionMismatch region t then (st.1, st.2.1, st.2.2.1 + 1, st.2.2.2)
  else if belowMin minA (amount t) then (st.1, st.2.1, st.2.2.1, st.2.2.2 + 1)
  else if aboveMax maxA (amount t) then (st.1, st.2.1, st.2.2.1, st.2.2.2 + 1)
  else (st.1 ++ [t], st.2.1, st.2.2.1, st.2.2.2)

/-- `validate_and_filter`. Before the loop the code evaluates
`min(amounts)` and `max(amounts)` over the pre-filter input for display;
on an empty transaction list that raises `ValueError` (embedded as `none`)
before any validation happens. -/
def validate_and_filter (ts : List Transaction)
    (region : Option String) (minA : Option ℚ) (maxA : Option ℚ) :
    Option (List Transaction × Nat × VFSummary) :=
  if ts.isEmpty then none
  else
    let st := ts.foldl (vfStep region minA maxA) ([], 0, 0, 0)
    some (st.1, st.2.1,
      ⟨ts.length, st.2.1, st.2.2.1, st.2.2.2, st.1.length⟩)

/-! ## `api_handler.enrich_sales_data` -/

/-- Python `product_id.replace("P", "")`: removes every occurrence of the
character `P`, not only a leading one. -/
def removeP (s : String) : String :=
  String.mk (s.data.filter (fun c => c ≠ 'P'))

/-- Digit-string scanner for Python's `int()`: consumes decimal digits with
single underscores allowed between digits (Python 3 numeric grouping);
`prevUnd` records that the previous character was an underscore, which must
be followed by a digit. -/
def digitsRest (acc : Nat) (prevUnd : Bool) (l : List Char) : Option Nat :=
  match l with
  | [] => if prevUnd then none else some acc
  | c :: cs =>
      if c.isDigit then digitsRest (10 * acc + (c.toNat - 48)) false cs
      else if c = '_' then
        if prevUnd then none else digitsRest acc true cs
      else none

/-- A digit string must start with a digit (no leading underscore). -/
def parseDigits : List Char → Option Nat
  | [] => none
  | c :: cs => if c.isDigit then digitsRest (c.toNat - 48) false cs else none

/-- Strip leading and trailing whitespace, as Python's `int()` does. -/
def pyStripWs (l : List Char) : List Char :=
  ((l.dropWhile Char.isWhitespace).reverse.dropWhile Char.isWhitespace).reverse

/-- Python's `int(s)` on an ASCII string: optional surrounding whitespace,
optional sign, then a nonempty underscore-grouped digit string; any other
shape raises `ValueError` (embedded as `none`). -/
def pyIntParse (s : String) : Option Int :=
  match pyStripWs s.data with
  | '+' :: rest => (parseDigits rest).map (fun n => (n : Int))
  | '-' :: rest => (parseDigits rest).map (fun n => -(n : Int))
  | cs => (parseDigits cs).map (fun n => (n : Int))

/-- The projection of a catalog entry consumed by enrichment. -/
structure ProductInfo where
  title : String
  category : String
  brand : String
  rating : ℚ
deriving DecidableEq, Repr

/-- An output record of `enrich_sales_data`: the copied transaction plus
the three API fields and the match flag. -/
structure EnrichedTransaction where
  base : Transaction
  api_category : Option String
  api_brand : Option String
  api_rating : Option ℚ
  api_match : Bool
deriving DecidableEq, Repr

/-- The body of the `enrich_sales_data` loop for one transaction:
`int(product_id.replace("P", ""))` with the `except` arm yielding `None`,
then a dict lookup; a missing or unparseable key gives the non-match
annotation instead of an error. -/
def enrichOne (mapping : Int → Option ProductInfo) (t : Transaction) :
    EnrichedTransaction :=
  match (pyIntParse (removeP t.productID)).bind mapping with
  | some info => ⟨t, some info.category, some info.brand, some info.rating, true⟩
  | none => ⟨t, none, none, none, false⟩

/-- `enrich_sales_data`: one output per input, in input order, each a copy
of the input record extended with the API fields. (The coupled
`save_enriched_data` file write is I/O and outside the embedding.) -/
def enrich_sales_data (ts : List Transaction)
    (mapping : Int → Option ProductInfo) : List EnrichedTransaction :=
  ts.map (enrichOne mapping)

/-- The join-key derivation exactly as claim C4 words it, for refinement
comparison with the code's `removeP`-based key: strip the product
identifier's single leading prefix letter and parse the remaining suffix
as an integer. -/
def claimJoinKey (pid : String) : Option Int :=
  pyIntParse (String.mk (pid.data.drop 1))

/-! ## Order of first encounter -/

/-- The order in which distinct labels are first encountered in a list:
the reference order for stable tie-breaks in the grouped aggregates. -/
def firstSeen (l : List String) : List String :=
  l.foldl (fun acc x => if x ∈ acc then acc else acc ++ [x]) []

/-! ## Concrete inputs used by the closed theorems below -/

/-- First record of the spec §8 worked example. -/
def exPen : Transaction :=
  ⟨"T001", "2024-01-01", "P1", "Pen", 10, 2, "C1", "North"⟩

/-- Second record of the spec §8 worked example. -/
def exBook : Transaction :=
  ⟨"T002", "2024-01-01", "P2", "Book", 1, 50, "C2", "South"⟩

/-- A non-empty record with a zero line amount (unit price 0), giving a
zero grand total. -/
def exZeroAmount : Transaction :=
  ⟨"T001", "2024-01-01", "P1", "Pen", 1, 0, "C1", "North"⟩

/-- A record whose product identifier contains a second `P` after the
prefix: the code's `replace("P", "")` key differs from stripping only the
leading letter. -/
def exTrailingP : Transaction :=
  ⟨"T001", "2024-01-01", "P1P", "Pen", 10, 2, "C1", "North"⟩

/-- A record whose product identifier has no digits at all, so every key
derivation fails. -/
def exNoDigits : Transaction :=
  ⟨"T001", "2024-01-01", "XYZ", "Pen", 10, 2, "C1", "North"⟩

/-- A one-entry catalog mapping `1 ↦ a stationery product`. -/
def exMapping : Int → Option ProductInfo :=
  fun k => if k = 1 then some ⟨"Pen", "stationery", "Acme", 4⟩ else none

/-! ## Lemmas about the stable sorts -/

theorem mem_insDesc {α β : Type} [LinearOrder β] (key : α → β) (a x : α)
    (l : List α) : x ∈ insDesc key a l ↔ x = a ∨ x ∈ l := by
  induction l with
  | nil => simp [insDesc]
  | cons b l ih =>
      simp only [insDesc]
      split
      · simp only [List.mem_cons, ih]
        tauto
      · simp only [List.mem_cons]

theorem sorted_insDesc {α β : Type} [LinearOrder β] (key : α → β) (a : α)
    {l : List α} (h : List.Sorted (fun x y => key y ≤ key x) l) :
    List.Sorted (fun x y => key y ≤ key x) (insDesc key a l) := by
  induction l with
  | nil => simp [insDesc]
  | cons b l ih =>
      rw [List.sorted_cons] at h
      obtain ⟨hb, hl⟩ := h
      simp only [insDesc]
      split
      · rename_i hab
        rw [List.sorted_cons]
        refine ⟨fun y hy => ?_, ih hl⟩
        rcases (mem_insDesc key a y l).mp hy with rfl | hyl
        · exact le_of_lt hab
        · exact hb y hyl
      · rename_i hab
        rw [not_lt] at hab
        rw [List.sorted_cons]
        refine ⟨fun y hy => ?_, List.sorted_cons.mpr ⟨hb, hl⟩⟩
        rcases List.mem_cons.mp hy with rfl | hyl
        · exact hab
        · exact le_trans (hb y hyl) hab

theorem sorted_sortDescBy {α β : Type} [LinearOrder β] (key : α → β)
    (l : List α) :
    List.Sorted (fun x y => key y ≤ key x) (sortDescBy key l) := by
  induction l with
  | nil => simp [sortDescBy]
  | cons a l ih => exact sorted_insDesc key a ih

theorem filter_insDesc {α β : Type} [LinearOrder β] (key : α → β) (a : α)
    (l : List α) (k : β) :
    (insDesc key a l).filter (fun x => decide (key x = k)) =
      if key a = k then a :: l.filter (fun x => decide (key x = k))
      else l.filter (fun x => decide (key x = k)) := by
  induction l with
  | nil =>
      by_cases hak : key a = k <;> simp [insDesc, List.filter, hak]
  | cons b l ih =>
      simp only [insDesc]
      split
      · rename_i hab
        by_cases hak : key a = k
        · have hbk : ¬ (key b = k) := by
            intro hbk
            rw [← hak] at hbk
            exact absurd (hbk ▸ hab) (lt_irrefl _)
          simp [List.filter_cons, hak, hbk, ih]
        · simp [List.filter_cons, hak, ih]
      · by_cases hak : key a = k <;>
          by_cases hbk : key b = k <;>
            simp [List.filter_cons, hak, hbk]

theorem filter_sortDescBy {α β : Type} [LinearOrder β] (key : α → β)
    (l : List α) (k : β) :
    (sortDescBy key l).filter (fun x => decide (key x = k)) =
      l.filter (fun x => decide (key x = k)) := by
  induction l with
  | nil => rfl
  | cons a l ih =>
      simp only [sortDescBy]
      rw [filter_insDesc, ih]
      by_cases hak : key a = k <;> simp [List.filter_cons, hak]

theorem map_sum_insDesc {α β M : Type} [LinearOrder β] [AddCommMonoid M]
    (key : α → β) (f : α → M) (a : α) (l : List α) :
    ((insDesc key a l).map f).sum = f a + (l.map f).sum := by
  induction l with
  | nil => simp [insDesc]
  | cons b l ih =>
      simp only [insDesc]
      split
      · simp only [List.map_cons, List.sum_cons, ih]
        rw [← add_assoc, ← add_assoc, add_comm (f b) (f a)]
      · simp

theorem map_sum_sortDescBy {α β M : Type} [LinearOrder β] [AddCommMonoid M]
    (key : α → β) (f : α → M) (l : List α) :
    ((sortDescBy key l).map f).sum = (l.map f).sum := by
  induction l with
  | nil => rfl
  | cons a l ih =>
      simp only [sortDescBy, map_sum_insDesc, ih, List.map_cons,
        List.sum_cons]

theorem mem_insAsc {α β : Type} [LinearOrder β] (key : α → β) (a x : α)
    (l : List α) : x ∈ insAsc key a l ↔ x = a ∨ x ∈ l := by
  induction l with
  | nil => simp [insAsc]
  | cons b l ih =>
      simp only [insAsc]
      split
      · simp only [List.mem_cons, ih]
        tauto
      · simp only [List.mem_cons]

theorem sorted_insAsc {α β : Type} [LinearOrder β] (key : α → β) (a : α)
    {l : List α} (h : List.Sorted (fun x y => key x ≤ key y) l) :
    List.Sorted (fun x y => key x ≤ key y) (insAsc key a l) := by
  induction l with
  | nil => simp [insAsc]
  | cons b l ih =>
      rw [List.sorted_cons] at h
      obtain ⟨hb, hl⟩ := h
      simp only [insAsc]
      split
      · rename_i hba
        rw [List.sorted_cons]
        refine ⟨fun y hy => ?_, ih hl⟩
        rcases (mem_insAsc key a y l).mp hy with rfl | hyl
        · exact le_of_lt hba
        · exact hb y hyl
      · rename_i hba
        rw [not_lt] at hba
        rw [List.sorted_cons]
        refine ⟨fun y hy => ?_, List.sorted_cons.mpr ⟨hb, hl⟩⟩
        rcases List.mem_cons.mp hy with rfl | hyl
        · exact hba
        · exact le_trans hba (hb y hyl)

theorem sorted_sortAscBy {α β : Type} [LinearOrder β] (key : α → β)
    (l : List α) :
    List.Sorted (fun x y => key x ≤ key y) (sortAscBy key l) := by
  induction l with
  | nil => simp [sortAscBy]
  | cons a l ih => exact sorted_insAsc key a ih

theorem mem_sortAscBy {α β : Type} [LinearOrder β] (key : α → β) (x : α)
    (l : List α) : x ∈ sortAscBy key l ↔ x ∈ l := by
  induction l with
  | nil => rfl
  | cons a l ih =>
      simp only [sortAscBy, mem_insAsc, List.mem_cons, ih]

theorem mem_sortDescBy {α β : Type} [LinearOrder β] (key : α → β) (x : α)
    (l : List α) : x ∈ sortDescBy key l ↔ x ∈ l := by
  induction l with
  | nil => rfl
  | cons a l ih =>
      simp only [sortDescBy, mem_insDesc, List.mem_cons, ih]

/-! ## Lemmas about `updateAssoc` and the grouping folds -/

theorem updateAssoc_keys {V : Type} (l : List (String × V)) (k : String)
    (init : V) (f : V → V) :
    (updateAssoc l k init f).map Prod.fst =
      if k ∈ l.map Prod.fst then l.map Prod.fst
      else l.map Prod.fst ++ [k] := by
  induction l with
  | nil => simp [updateAssoc]
  | cons p l ih =>
      obtain ⟨k', v⟩ := p
      simp only [updateAssoc]
      split
      · rename_i h
        subst h
        simp
      · rename_i h
        have hne : k' ≠ k := h
        simp only [List.map_cons, ih, List.mem_cons]
        by_cases hk : k ∈ l.map Prod.fst
        · simp [hk, hne, Ne.symm hne]
        · simp [hk, hne, Ne.symm hne]

theorem updateAssoc_sum {V M : Type} [AddCommMonoid M] (m : V → M) (d : M)
    (l : List (String × V)) (k : String) (init : V) (f : V → V)
    (hf : ∀ v, m (f v) = m v + d) (h0 : m init = 0) :
    ((updateAssoc l k init f).map (fun p => m p.2)).sum =
      (l.map (fun p => m p.2)).sum + d := by
  induction l with
  | nil => simp [updateAssoc, hf, h0]
  | cons p l ih =>
      obtain ⟨k', v⟩ := p
      simp only [updateAssoc]
      split
      · simp only [List.map_cons, List.sum_cons, hf]
        rw [add_assoc, add_comm d, ← add_assoc]
      · simp only [List.map_cons, List.sum_cons, ih]
        rw [add_assoc]

/-- The region grouping fold adds each transaction's amount to the total
of exactly one bucket. -/
theorem regionGroups_sum_aux (ts : List Transaction) :
    ∀ acc : List (String × RegionAcc),
      (((ts.foldl
            (fun acc t =>
              updateAssoc acc t.region ⟨0, 0⟩
                (fun s =>
                  ⟨s.total_sales + amount t, s.transaction_count + 1⟩))
            acc).map (fun p => p.2.total_sales)).sum) =
        (acc.map (fun p => p.2.total_sales)).sum + (ts.map amount).sum := by
  induction ts with
  | nil => intro acc; simp
  | cons t ts ih =>
      intro acc
      simp only [List.foldl_cons, List.map_cons, List.sum_cons]
      rw [ih]
      rw [updateAssoc_sum (fun s : RegionAcc => s.total_sales) (amount t)
        acc t.region ⟨0, 0⟩ _ (fun v => rfl) rfl]
      rw [add_assoc]

theorem calculate_total_revenue_eq_sum (ts : List Transaction) :
    calculate_total_revenue ts = (ts.map amount).sum := by
  suffices h : ∀ a : ℚ,
      ts.foldl (fun total t => total + amount t) a = a + (ts.map amount).sum by
    rw [calculate_total_revenue]
    rw [h 0, zero_add]
  induction ts with
  | nil => intro a; simp
  | cons t ts ih =>
      intro a
      simp only [List.foldl_cons, List.map_cons, List.sum_cons, ih,
        add_assoc]

theorem regionGroups_sum (ts : List Transaction) :
    ((regionGroups ts).map (fun p => p.2.total_sales)).sum =
      calculate_total_revenue ts := by
  rw [regionGroups, regionGroups_sum_aux ts [], calculate_total_revenue_eq_sum]
  simp

/-! ## Lemmas about `optionMapList` -/

theorem optionMapList_forall₂ {α β : Type} {f : α → Option β} :
    ∀ {l : List α} {l' : List β}, optionMapList f l = some l' →
      List.Forall₂ (fun a b => f a = some b) l l' := by
  intro l
  induction l with
  | nil =>
      intro l' h
      simp only [optionMapList, Option.some.injEq] at h
      subst h
      exact List.Forall₂.nil
  | cons a l ih =>
      intro l' h
      simp only [optionMapList] at h
      rcases hfa : f a with _ | b <;> rw [hfa] at h
      · exact absurd h (by simp)
      · rcases hml : optionMapList f l with _ | bs <;> rw [hml] at h
        · exact absurd h (by simp)
        · simp only [Option.some.injEq] at h
          subst h
          exact List.Forall₂.cons hfa (ih hml)

/-- Along a `Forall₂` produced by a pointwise option-map, any projection
that the pointwise function preserves is preserved listwise. -/
theorem forall₂_map_eq {α β γ : Type} {R : α → β → Prop}
    (g : β → γ) (h : α → γ) :
    ∀ {l : List α} {l' : List β}, List.Forall₂ R l l' →
      (∀ a b, R a b → g b = h a) → l'.map g = l.map h := by
  intro l l' hf
  induction hf with
  | nil => intro _; rfl
  | cons hab _ ih =>
      intro hpres
      simp only [List.map_cons, ih hpres, hpres _ _ hab]

/-! ## Lemmas about the peak-day fold -/

theorem peak_foldl_acc_le (l : List (String × DayStat)) :
    ∀ acc : String × ℚ × Nat, acc.2.1 ≤ (l.foldl peakStep acc).2.1 := by
  induction l with
  | nil => intro acc; exact le_refl _
  | cons p l ih =>
      intro acc
      refine le_trans ?_ (ih (peakStep acc p))
      rw [peakStep]
      split
      · rename_i h
        exact le_of_lt h
      · exact le_refl _

theorem peak_foldl_mem_le (l : List (String × DayStat)) :
    ∀ (acc : String × ℚ × Nat) (p : String × DayStat), p ∈ l →
      p.2.revenue ≤ (l.foldl peakStep acc).2.1 := by
  induction l with
  | nil => intro _ _ h; exact absurd h (List.not_mem_nil _)
  | cons q l ih =>
      intro acc p hp
      rcases List.mem_cons.mp hp with rfl | hpl
      · refine le_trans ?_ (peak_foldl_acc_le l (peakStep acc p))
        rw [peakStep]
        split
        · exact le_refl _
        · rename_i h
          exact le_of_not_lt h
      · exact ih (peakStep acc q) p hpl

theorem peak_foldl_all_zero (l : List (String × DayStat))
    (h : ∀ p ∈ l, p.2.revenue = 0) :
    l.foldl peakStep ("", 0, 0) = ("", 0, 0) := by
  induction l with
  | nil => rfl
  | cons p l ih =>
      have hp : p.2.revenue = 0 := h p (List.mem_cons_self p l)
      have hstep : peakStep ("", 0, 0) p = ("", 0, 0) := by
        rw [peakStep, hp]
        simp
      simp only [List.foldl_cons, hstep]
      exact ih (fun q hq => h q (List.mem_cons_of_mem p hq))

/-! ## Keys of the grouping folds are in first-encountered order -/

theorem foldl_updateAssoc_keys {A V : Type} (keyOf : A → String)
    (initOf : A → V) (fOf : A → V → V) (ts : List A) :
    ∀ acc : List (String × V),
      ((ts.foldl
          (fun acc t => updateAssoc acc (keyOf t) (initOf t) (fOf t))
          acc).map Prod.fst) =
        (ts.map keyOf).foldl
          (fun ks x => if x ∈ ks then ks else ks ++ [x])
          (acc.map Prod.fst) := by
  induction ts with
  | nil => intro acc; rfl
  | cons t ts ih =>
      intro acc
      simp only [List.foldl_cons, List.map_cons]
      rw [ih, updateAssoc_keys]

theorem regionGroups_keys (ts : List Transaction) :
    (regionGroups ts).map Prod.fst = firstSeen (ts.map Transaction.region) := by
  rw [regionGroups, firstSeen]
  exact foldl_updateAssoc_keys Transaction.region
    (fun _ => (⟨0, 0⟩ : RegionAcc))
    (fun t s => (⟨s.total_sales + amount t, s.transaction_count + 1⟩ :
      RegionAcc)) ts []

theorem customerGroups_keys (ts : List Transaction) :
    (customerGroups ts).map Prod.fst =
      firstSeen (ts.map Transaction.customerID) := by
  rw [customerGroups, firstSeen]
  exact foldl_updateAssoc_keys Transaction.customerID
    (fun _ => (⟨0, 0, []⟩ : CustAcc))
    (fun t s =>
      (⟨s.total_spent + amount t, s.purchase_count + 1,
        if t.productName ∈ s.products_bought then s.products_bought
        else s.products_bought ++ [t.productName]⟩ : CustAcc)) ts []

theorem productGroups_keys (ts : List Transaction) :
    (productGroups ts).map Prod.fst =
      firstSeen (ts.map Transaction.productName) := by
  rw [productGroups, firstSeen]
  exact foldl_updateAssoc_keys Transaction.productName
    (fun _ => (⟨0, 0⟩ : ProdAcc))
    (fun t s => (⟨s.qty + t.quantity, s.revenue + amount t⟩ : ProdAcc)) ts []

theorem productRows_keys (ts : List Transaction) :
    (productRows ts).map Prod.fst =
      firstSeen (ts.map Transaction.productName) := by
  rw [productRows, List.map_map, ← productGroups_keys]
  rfl

/-! ## Evaluating `round2` on concrete rationals -/

theorem roundHalfEven_eq_down (q : ℚ) (n : ℤ) (h1 : (n : ℚ) ≤ q)
    (h2 : q - n < 1/2) : roundHalfEven q = n := by
  have hf : ⌊q⌋ = n := by
    rw [Int.floor_eq_iff]
    exact ⟨h1, by linarith⟩
  simp only [roundHalfEven, hf]
  rw [if_pos h2]

theorem roundHalfEven_eq_up (q : ℚ) (n : ℤ) (h1 : (n : ℚ) ≤ q)
    (h2 : 1/2 < q - n) (h3 : q < n + 1) : roundHalfEven q = n + 1 := by
  have hf : ⌊q⌋ = n := by
    rw [Int.floor_eq_iff]
    exact ⟨h1, by linarith⟩
  simp only [roundHalfEven, hf]
  rw [if_neg (by linarith), if_pos h2]

theorem round2_eq_down (q : ℚ) (n : ℤ) (h1 : (n : ℚ) ≤ q * 100)
    (h2 : q * 100 - n < 1/2) : round2 q = (n : ℚ) / 100 := by
  rw [round2, roundHalfEven_eq_down (q * 100) n h1 h2]

theorem round2_eq_up (q : ℚ) (n : ℤ) (h1 : (n : ℚ) ≤ q * 100)
    (h2 : 1/2 < q * 100 - n) (h3 : q * 100 < n + 1) :
    round2 q = ((n : ℚ) + 1) / 100 := by
  rw [round2, roundHalfEven_eq_up (q * 100) n h1 h2 h3]
  push_cast
  rfl

theorem round2_val_100 : round2 (100 : ℚ) = 100 := by
  rw [round2_eq_down 100 10000 (by norm_num) (by norm_num)]
  norm_num

theorem round2_val_20 : round2 (20 : ℚ) = 20 := by
  rw [round2_eq_down 20 2000 (by norm_num) (by norm_num)]
  norm_num

theorem round2_val_north : round2 ((200 : ℚ)/7) = 2857/100 := by
  rw [round2_eq_down ((200 : ℚ)/7) 2857 (by norm_num) (by norm_num)]
  norm_num

theorem round2_val_south : round2 ((500 : ℚ)/7) = 7143/100 := by
  rw [round2_eq_up ((500 : ℚ)/7) 7142 (by norm_num) (by norm_num) (by norm_num)]
  norm_num

/-! ## Claim theorems -/

/-- Claim C1: for every transaction list, `find_peak_sales_day` returns a
triple whose revenue component is at least the revenue of every daily
bucket of `daily_sales_trend` on the same input; the empty input and any
input all of whose daily revenues are zero both return the sentinel
`("", 0, 0)` (no fault is possible). -/
theorem claim_C1_peak_day (ts : List Transaction) :
    (∀ p ∈ daily_sales_trend ts,
        p.2.revenue ≤ (find_peak_sales_day ts).2.1) ∧
    (ts = [] → find_peak_sales_day ts = ("", 0, 0)) ∧
    ((∀ p ∈ daily_sales_trend ts, p.2.revenue = 0) →
        find_peak_sales_day ts = ("", 0, 0)) := by
  refine ⟨fun p hp => ?_, fun h => ?_, fun h => ?_⟩
  · rw [find_peak_sales_day]
    exact peak_foldl_mem_le (daily_sales_trend ts) ("", 0, 0) p hp
  · subst h
    rfl
  · rw [find_peak_sales_day]
    exact peak_foldl_all_zero (daily_sales_trend ts) h

/-- Witness for C1: the empty input actually yields the sentinel. -/
theorem claim_C1_peak_day_witness :
    find_peak_sales_day [] = ("", 0, 0) :=
  (claim_C1_peak_day []).2.1 rfl

/-- Claim C2 (evaluation at the failing input): the code does NOT
special-case a zero grand total. On the empty list both functions complete
(their loops simply do not run), but on a non-empty list of zero-amount
records the percentage division `total/0` in `region_wise_sales` raises a
`ZeroDivisionError` (here `none`), while `customer_analysis` completes
because each customer's purchase count is at least 1. -/
theorem claim_C2_division_fault :
    region_wise_sales [] = some [] ∧
    customer_analysis [] = some [] ∧
    region_wise_sales [exZeroAmount] = none ∧
    customer_analysis [exZeroAmount] =
      some [("C1", ⟨0, 1, 0, ["Pen"]⟩)] := by
  refine ⟨rfl, rfl, ?_, ?_⟩ <;>
    norm_num [region_wise_sales, regionWithPct, regionGroups, customer_analysis,
      customerWithAvg, customerGroups, updateAssoc, optionMapList, pydiv,
      calculate_total_revenue, amount, exZeroAmount, round2, roundHalfEven,
      sortDescBy, insDesc]

/-- Claim C3: a supplied minimum amount of exactly 0 is falsy in the
Python conditional `if min_amount and …`, so `validate_and_filter` behaves
exactly as if no minimum were supplied, for every input list and every
choice of the other parameters; symmetrically for a maximum of exactly 0. -/
theorem claim_C3_zero_bound_disabled :
    (∀ (ts : List Transaction) (region : Option String) (maxA : Option ℚ),
        validate_and_filter ts region (some 0) maxA =
          validate_and_filter ts region none maxA) ∧
    (∀ (ts : List Transaction) (region : Option String) (minA : Option ℚ),
        validate_and_filter ts region minA (some 0) =
          validate_and_filter ts region minA none) := by
  constructor
  · intro ts region maxA
    have hb : belowMin (some 0) = belowMin none := by
      funext a
      simp [belowMin]
    have hs : vfStep region (some 0) maxA = vfStep region none maxA := by
      funext st t
      rw [vfStep, vfStep, hb]
    rw [validate_and_filter, validate_and_filter, hs]
  · intro ts region minA
    have hb : aboveMax (some 0) = aboveMax none := by
      funext a
      simp [aboveMax]
    have hs : vfStep region minA (some 0) = vfStep region minA none := by
      funext st t
      rw [vfStep, vfStep, hb]
    rw [validate_and_filter, validate_and_filter, hs]

/-- Counterexample to claim C4 as stated: the code derives the join key
with `product_id.replace("P", "")`, which removes every `P`, not only the
leading prefix letter. For the product identifier `"P1P"`, stripping the
leading prefix letter leaves `"1P"`, whose integer parse fails, so the
claim predicts a non-match; yet the code parses `"1"`, finds key 1 in the
mapping, and annotates the record as a match. -/
theorem claim_C4_counterexample :
    claimJoinKey "P1P" = none ∧
    (enrich_sales_data [exTrailingP] exMapping).map
        (fun e => e.api_match) = [true] := by
  constructor <;> decide

/-- Claim C4 as amended: the join key is derived by removing every
occurrence of the letter `P` from the product identifier and parsing the
result as an integer; when that parse fails the record is annotated as a
non-match (flag false, three optional fields absent) and no error is
raised, wherever the record sits in the input. -/
theorem claim_C4_amended_key (ts₁ ts₂ : List Transaction) (t : Transaction)
    (mapping : Int → Option ProductInfo)
    (h : pyIntParse (removeP t.productID) = none) :
    enrich_sales_data (ts₁ ++ t :: ts₂) mapping =
      enrich_sales_data ts₁ mapping ++
        (⟨t, none, none, none, false⟩ : EnrichedTransaction) ::
          enrich_sales_data ts₂ mapping := by
  simp [enrich_sales_data, enrichOne, h]

/-- Witness for the amended C4: a product identifier with no digits
parses to nothing and yields the non-match annotation. -/
theorem claim_C4_amended_key_witness :
    enrich_sales_data ([] ++ exNoDigits :: []) exMapping =
      enrich_sales_data [] exMapping ++
        (⟨exNoDigits, none, none, none, false⟩ : EnrichedTransaction) ::
          enrich_sales_data [] exMapping :=
  claim_C4_amended_key [] [] exNoDigits exMapping (by decide)

/-- Claim C5: whenever `region_wise_sales` returns a result, the sum of
the per-region `total_sales` equals `calculate_total_revenue` on the same
input, exactly (the embedding computes in ℚ). -/
theorem claim_C5_region_sum (ts : List Transaction)
    (out : List (String × RegionStat))
    (h : region_wise_sales ts = some out) :
    (out.map (fun p => p.2.total_sales)).sum = calculate_total_revenue ts := by
  rw [region_wise_sales] at h
  rcases Option.map_eq_some'.mp h with ⟨pre, hpre, hsort⟩
  subst hsort
  rw [map_sum_sortDescBy]
  simp only [regionWithPct] at hpre
  have h2 := optionMapList_forall₂ hpre
  have h3 : pre.map (fun p => p.2.total_sales) =
      (regionGroups ts).map (fun p => p.2.total_sales) := by
    refine forall₂_map_eq _ _ h2 ?_
    intro a b hab
    rcases Option.map_eq_some'.mp hab with ⟨q, _, hb⟩
    subst hb
    rfl
  rw [h3, regionGroups_sum]

/-- Witness for C5: a one-record input, where the single region's total
equals the grand total. -/
theorem claim_C5_region_sum_witness :
    (([("North", ⟨20, 1, 100⟩)] : List (String × RegionStat)).map
        (fun p => p.2.total_sales)).sum = calculate_total_revenue [exPen] :=
  claim_C5_region_sum [exPen] [("North", ⟨20, 1, 100⟩)]
    (by norm_num [region_wise_sales, regionWithPct, regionGroups, updateAssoc,
      optionMapList, pydiv, calculate_total_revenue, amount, exPen,
      round2_val_100, sortDescBy, insDesc])

/-- Claim C6: enrichment is total — one output record per input record in
input order (`Forall₂` forces equal length and positional correspondence);
each output carries the unchanged input record as its base (value copy);
and the match flag is true iff all three API fields are populated and
false iff all three are absent. -/
theorem claim_C6_enrichment_total (ts : List Transaction)
    (mapping : Int → Option ProductInfo) :
    (enrich_sales_data ts mapping).length = ts.length ∧
    List.Forall₂
      (fun t e =>
        e.base = t ∧
        (e.api_match = true ↔
          (e.api_category.isSome ∧ e.api_brand.isSome ∧ e.api_rating.isSome)) ∧
        (e.api_match = false ↔
          (e.api_category = none ∧ e.api_brand = none ∧ e.api_rating = none)))
      ts (enrich_sales_data ts mapping) := by
  constructor
  · simp [enrich_sales_data]
  · rw [enrich_sales_data]
    induction ts with
    | nil => exact List.Forall₂.nil
    | cons t ts ih =>
        rw [List.map_cons]
        refine List.Forall₂.cons ?_ ih
        rcases hm : (pyIntParse (removeP t.productID)).bind mapping
          with _ | info <;> simp [enrichOne, hm]

/-- Claim C7: the three ranked views are each non-increasing on their sort
key, and equal-key entries keep the first-encountered order: the unsorted
grouped lists (`regionWithPct`, `customerWithAvg`, `productRows`) list the
group keys in order of first encounter in the input, and sorting changes
no relative order within an equal-key class (the filtered lists agree; for
the truncated top-products list, the output class is a sublist of the
grouped class). -/
theorem claim_C7_stable_orderings (ts : List Transaction)
    (preR outR : List (String × RegionStat))
    (preC outC : List (String × CustStat))
    (hpreR : regionWithPct ts = some preR)
    (houtR : region_wise_sales ts = some outR)
    (hpreC : customerWithAvg ts = some preC)
    (houtC : customer_analysis ts = some outC) :
    (List.Sorted (fun x y => y.2.total_sales ≤ x.2.total_sales) outR ∧
     (∀ k : ℚ, outR.filter (fun p => decide (p.2.total_sales = k)) =
        preR.filter (fun p => decide (p.2.total_sales = k))) ∧
     preR.map Prod.fst = firstSeen (ts.map Transaction.region)) ∧
    (List.Sorted (fun x y => y.2.total_spent ≤ x.2.total_spent) outC ∧
     (∀ k : ℚ, outC.filter (fun p => decide (p.2.total_spent = k)) =
        preC.filter (fun p => decide (p.2.total_spent = k))) ∧
     preC.map Prod.fst = firstSeen (ts.map Transaction.customerID)) ∧
    ((∀ n, List.Sorted (fun x y => y.2.1 ≤ x.2.1)
        (top_selling_products ts n)) ∧
     (∀ (n : Nat) (k : Int),
        List.Sublist
          ((top_selling_products ts n).filter (fun x => decide (x.2.1 = k)))
          ((productRows ts).filter (fun x => decide (x.2.1 = k)))) ∧
     (productRows ts).map Prod.fst =
        firstSeen (ts.map Transaction.productName)) := by
  have houtR' : outR = sortDescBy (fun p => p.2.total_sales) preR := by
    rw [region_wise_sales, hpreR, Option.map_some'] at houtR
    exact (Option.some_inj.mp houtR).symm
  have houtC' : outC = sortDescBy (fun p => p.2.total_spent) preC := by
    rw [customer_analysis, hpreC, Option.map_some'] at houtC
    exact (Option.some_inj.mp houtC).symm
  subst houtR'
  subst houtC'
  refine ⟨⟨sorted_sortDescBy _ _, fun k => filter_sortDescBy _ _ k, ?_⟩,
          ⟨sorted_sortDescBy _ _, fun k => filter_sortDescBy _ _ k, ?_⟩,
          ⟨fun n => ?_, fun n k => ?_, productRows_keys ts⟩⟩
  · simp only [regionWithPct] at hpreR
    have h2 := optionMapList_forall₂ hpreR
    have h3 : preR.map Prod.fst = (regionGroups ts).map Prod.fst := by
      refine forall₂_map_eq _ _ h2 ?_
      intro a b hab
      rcases Option.map_eq_some'.mp hab with ⟨q, _, hb⟩
      subst hb
      rfl
    rw [h3, regionGroups_keys]
  · simp only [customerWithAvg] at hpreC
    have h2 := optionMapList_forall₂ hpreC
    have h3 : preC.map Prod.fst = (customerGroups ts).map Prod.fst := by
      refine forall₂_map_eq _ _ h2 ?_
      intro a b hab
      rcases Option.map_eq_some'.mp hab with ⟨q, _, hb⟩
      subst hb
      rfl
    rw [h3, customerGroups_keys]
  · rw [top_selling_products]
    exact List.Pairwise.sublist (List.take_sublist _ _)
      (sorted_sortDescBy _ _)
  · rw [top_selling_products, ← filter_sortDescBy (fun x => x.2.1)
      (productRows ts) k]
    exact List.Sublist.filter _ (List.take_sublist _ _)

/-- Witness for C7: on a one-record input every hypothesis holds and the
region ranking is sorted. -/
theorem claim_C7_stable_orderings_witness :
    List.Sorted
      (fun x y : String × RegionStat =>
        y.2.total_sales ≤ x.2.total_sales)
      [("North", ⟨20, 1, 100⟩)] :=
  (claim_C7_stable_orderings [exPen]
    [("North", ⟨20, 1, 100⟩)] [("North", ⟨20, 1, 100⟩)]
    [("C1", ⟨20, 1, 20, ["Pen"]⟩)] [("C1", ⟨20, 1, 20, ["Pen"]⟩)]
    (by norm_num [regionWithPct, regionGroups, updateAssoc, optionMapList,
      pydiv, calculate_total_revenue, amount, exPen, round2_val_100])
    (by norm_num [region_wise_sales, regionWithPct, regionGroups,
      updateAssoc, optionMapList, pydiv, calculate_total_revenue, amount,
      exPen, round2_val_100, sortDescBy, insDesc])
    (by norm_num [customerWithAvg, customerGroups, updateAssoc,
      optionMapList, pydiv, amount, exPen, round2_val_20])
    (by norm_num [customer_analysis, customerWithAvg, customerGroups,
      updateAssoc, optionMapList, pydiv, amount, exPen, round2_val_20,
      sortDescBy, insDesc])).1.1

/-- Claim C8: the spec §8 worked example, computed by the embedded code:
total revenue 70; South 50 (71.43%) ahead of North 20 (28.57%); top
product Pen with quantity 10 and revenue 20; the single daily bucket for
2024-01-01 has revenue 70, 2 transactions, 2 unique customers; peak day
("2024-01-01", 70, 2). -/
theorem claim_C8_worked_example :
    calculate_total_revenue [exPen, exBook] = 70 ∧
    region_wise_sales [exPen, exBook] =
      some [("South", ⟨50, 1, 7143/100⟩), ("North", ⟨20, 1, 2857/100⟩)] ∧
    (top_selling_products [exPen, exBook] 5).head? = some ("Pen", 10, 20) ∧
    daily_sales_trend [exPen, exBook] = [("2024-01-01", ⟨70, 2, 2⟩)] ∧
    find_peak_sales_day [exPen, exBook] = ("2024-01-01", 70, 2) := by
  refine ⟨?_, ?_, ?_, ?_, ?_⟩ <;>
    norm_num [calculate_total_revenue, amount, exPen, exBook,
      region_wise_sales, regionWithPct, regionGroups, updateAssoc,
      optionMapList, pydiv, round2_val_north, round2_val_south,
      top_selling_products, productRows, productGroups, sortDescBy, insDesc,
      daily_sales_trend, dailyGroups, sortAscBy, insAsc,
      find_peak_sales_day, peakStep]
  decide

/-- Claim C9: `low_performing_products` returns exactly the grouped
product rows with total quantity strictly below the threshold, in
non-decreasing quantity order, and the empty list when no product
qualifies. -/
theorem claim_C9_low_performers (ts : List Transaction) (threshold : Int) :
    (∀ x ∈ low_performing_products ts threshold, x.2.1 < threshold) ∧
    List.Sorted (fun x y => x.2.1 ≤ y.2.1)
      (low_performing_products ts threshold) ∧
    (∀ x, x ∈ low_performing_products ts threshold ↔
        x ∈ productRows ts ∧ x.2.1 < threshold) ∧
    ((∀ x ∈ productRows ts, ¬ x.2.1 < threshold) →
        low_performing_products ts threshold = []) := by
  have hmem : ∀ x, x ∈ low_performing_products ts threshold ↔
      x ∈ productRows ts ∧ x.2.1 < threshold := by
    intro x
    rw [low_performing_products, mem_sortAscBy, List.mem_filter]
    simp
  refine ⟨fun x hx => ((hmem x).mp hx).2, ?_, hmem, fun h => ?_⟩
  · rw [low_performing_products]
    exact sorted_sortAscBy _ _
  · rw [low_performing_products]
    have hfil : (productRows ts).filter
        (fun x => decide (x.2.1 < threshold)) = [] := by
      rw [List.filter_eq_nil_iff]
      intro a ha
      simp [h a ha]
    rw [hfil]
    rfl

/-- Witness for C9: with one product of quantity exactly 10 and threshold
10, no product qualifies and the result is empty. -/
theorem claim_C9_low_performers_witness :
    low_performing_products [exPen] 10 = [] :=
  (claim_C9_low_performers [exPen] 10).2.2.2
    (by norm_num [productRows, productGroups, updateAssoc, amount, exPen])

/-- Claim C10: on the empty transaction list `validate_and_filter` raises
(it evaluates `min`/`max` of the empty pre-filter amounts list before
validating), for every choice of the filter parameters, rather than
returning `([], 0, summary)`. -/
theorem claim_C10_empty_input_fault (region : Option String)
    (minA maxA : Option ℚ) :
    validate_and_filter [] region minA maxA = none := rfl

end SalesAnalytics
